import Mathlib

/-!
Verification development for the ManchAI scene-turn orchestration pipeline.

The definitions below are a shallow embedding of the TypeScript sources:
  * `src/lib/summarizeScene.ts`   → `summarizeScene` and its helpers
  * `src/lib/mockDirector.ts`     → `generateMockLines`
  * `src/lib/mockTTS.ts`          → `generateAudioUrl`, `processLinesWithTTS`
  * `src/lib/sceneUtils.ts`       → `createDefaultScene`
  * `src/lib/directorAgent.ts`    → `DirectorResponse`, `convertLanguage`
  * `src/pages/api/scene/turn.ts` → `handler` and its helpers

External events are modelled as explicit parameters:
  * the Director Agent call outcome is an `Except Unit DirectorResponse`
    argument (`Except.error` = the remote call threw);
  * per-line ElevenLabs synthesis outcomes are an oracle
    `Nat → String → String → String → Option String` taking the index of the
    synthesis call within the turn, the line text, the voice id and the
    language, returning `some url` on success and `none` on failure;
  * `Date.now()` instants and the `Math.random()` draw of the mock director
    are `Nat` parameters (the random draw enters only through `rand % 2`,
    the value of `Math.floor(Math.random() * 2)`).

JavaScript strings are modelled as Lean `String` (all constants involved are
ASCII, where JS UTF-16 length/substring agree with character counts).
-/

/-- The `Actor` record from `src/types/scene.ts`. -/
structure Actor where
  id : String
  name : String
  role : String
  language : String
  voiceId : String
  style : String
  deriving Repr, DecidableEq

/-- The `Line` record from `src/types/scene.ts`.  `beatIndex` is the non-negative
integer grouping; `timestamp` a `Date.now()` instant. -/
structure Line where
  id : String
  actorId : String
  text : String
  timestamp : Nat
  beatIndex : Nat
  audioUrl : String
  deriving Repr, DecidableEq

/-- The `SceneState` record from `src/types/scene.ts`. -/
structure SceneState where
  id : String
  title : String
  genre : String
  setting : String
  logline : String
  summary : String
  actors : List Actor
  lines : List Line
  createdAt : Nat
  updatedAt : Nat
  deriving Repr, DecidableEq

/-- The `sceneMetadata` field of `DirectorResponse` in `src/lib/directorAgent.ts`. -/
structure SceneMetadata where
  title : String
  genre : String
  setting : String
  logline : String
  deriving Repr, DecidableEq

/-- An `updatedActors` entry of `DirectorResponse`. -/
structure ActorUpdate where
  id : String
  language : String
  style : String
  deriving Repr, DecidableEq

/-- A `newLines` entry of `DirectorResponse`: one dialogue directive.
`beatDelta` is typed `0 | 1` in the source; the handler only ever tests
`beatDelta === 1`. -/
structure Directive where
  actorId : String
  language : String
  text : String
  beatDelta : Nat
  deriving Repr, DecidableEq

/-- The `DirectorResponse` shape from `src/lib/directorAgent.ts`.  `sceneMetadata` and
`updatedActors` are `Option`s because the handler guards on their presence
(`if (directorResponse.sceneMetadata)`, `if (directorResponse.updatedActors
&& ...)` — the parsed JSON is not statically checked). -/
structure DirectorResponse where
  sceneMetadata : Option SceneMetadata
  updatedActors : Option (List ActorUpdate)
  newLines : List Directive
  deriving Repr, DecidableEq

/-- The `convertLanguage` function from `src/lib/directorAgent.ts`: a plain cast. -/
def convertLanguage (lang : String) : String := lang

/-! ## JavaScript string helpers -/

/-- JS `s.substring(0, n)` (and `s.substring(0, Math.min(n, s.length))`):
the first `n` characters. -/
def jsTake (s : String) (n : Nat) : String := String.mk (s.data.take n)

/-- Structural infix test: does `needle` occur contiguously in the list? -/
def isInfixOfB (needle : List Char) : List Char → Bool
  | [] => needle.isEmpty
  | c :: rest => needle.isPrefixOf (c :: rest) || isInfixOfB needle rest

/-- JS `s.includes(sub)`: substring containment. -/
def strIncludes (s sub : String) : Bool := isInfixOfB sub.data s.data

/-- JS `s.toLowerCase()` (ASCII behaviour, which is all the embedded code
relies on). -/
def toLowerStr (s : String) : String := String.mk (s.data.map Char.toLower)

/-- JS `s.trim()`: strips whitespace from both ends. -/
def jsTrim (s : String) : String :=
  String.mk (((s.data.dropWhile Char.isWhitespace).reverse.dropWhile
    Char.isWhitespace).reverse)

/-- Worker for `splitStr`: splits at every delimiter character, yielding
`n + 1` (possibly empty) pieces for `n` delimiters. -/
def splitCharsAux (p : Char → Bool) : List Char → List Char → List (List Char)
  | acc, [] => [acc.reverse]
  | acc, c :: rest =>
    if p c then acc.reverse :: splitCharsAux p [] rest
    else splitCharsAux p (c :: acc) rest

/-- JS `s.split(/[.!?]+/)` up to empty pieces: the `+` in the regex only
collapses runs into extra empty pieces, and the caller filters blank pieces
away, so splitting at each delimiter character is equivalent there. -/
def splitStr (s : String) (p : Char → Bool) : List String :=
  (splitCharsAux p [] s.data).map String.mk

/-- JS regex word character class `\w` = `[A-Za-z0-9_]`. -/
def isWordCharB (c : Char) : Bool := c.isAlphanum || c = '_'

/-- Whether keyword `kw` matches at the start of `s` with a word boundary
after it (the keywords used are all-letter words, so the boundary before is
handled by the caller). -/
def wordStartsHere (s kw : List Char) : Bool :=
  kw.isPrefixOf s &&
    (match s.drop kw.length with
     | [] => true
     | c :: _ => !isWordCharB c)

/-- Scans `s` for a `\b(kw₁|kw₂|…)\b` match; `prevIsWord` records whether the
character before the current position is a word character. -/
def hasWordMatch (kws : List (List Char)) : Bool → List Char → Bool
  | _, [] => false
  | prevIsWord, c :: rest =>
    (!prevIsWord && kws.any (fun kw => wordStartsHere (c :: rest) kw))
      || hasWordMatch kws (isWordCharB c) rest

/-- JS `text.match(/\b(kw₁|kw₂|…)\b/) !== null` for all-word-character
keywords. -/
def matchAnyWord (s : String) (kws : List String) : Bool :=
  hasWordMatch (kws.map (fun k => k.data)) false s.data

/-- JS `parts.join` with a single-space separator. -/
def joinSpace : List String → String
  | [] => ""
  | [s] => s
  | s :: rest => s ++ " " ++ joinSpace rest

/-- JS `Map` built from a key/value list, queried with `get`: on duplicate
keys the last insertion wins. -/
def mapGetLast {α : Type} (l : List (String × α)) (k : String) : Option α :=
  (l.reverse.find? (fun p => p.1 == k)).map (fun p => p.2)

/-! ## `src/lib/summarizeScene.ts` -/

/-- The anger keyword set of `summarizeScene` (line 47). -/
def angerWords : List String := ["angry", "mad", "furious", "rage", "hate"]

/-- The joy keyword set (line 49). -/
def joyWords : List String := ["happy", "joy", "excited", "great", "wonderful"]

/-- The sorrow keyword set (line 51). -/
def sorrowWords : List String := ["sad", "sorry", "regret", "disappointed", "worried"]

/-- The question keyword set (line 53). -/
def questionWords : List String := ["question", "why", "what", "how", "confused"]

/-- The decision/intent keyword set used for key phrases (line 83, regex has
the `/i` flag, so it is applied to the lowercased text). -/
def intentWords : List String :=
  ["will", "must", "should", "need", "want", "going", "decided", "think", "believe"]

/-- JS `lines.slice(-10)`: the last (up to) 10 lines. -/
def lastTen (lines : List Line) : List Line := lines.drop (lines.length - 10)

/-- The `allText` local of `summarizeScene`: the texts of the last 10 lines joined by a
space, lowercased. -/
def allTextOf (lines : List Line) : String :=
  toLowerStr (joinSpace ((lastTen lines).map (fun l => l.text)))

/-- The `tone` classification of `summarizeScene` (lines 46–55): first match
wins in the order tense > positive > somber > inquisitive. -/
def toneOf (allText : String) : String :=
  if matchAnyWord allText angerWords then "tense"
  else if matchAnyWord allText joyWords then "positive"
  else if matchAnyWord allText sorrowWords then "somber"
  else if matchAnyWord allText questionWords then "inquisitive"
  else "neutral"

/-- The `toneDescriptions` record of `summarizeScene` (lines 97–102). -/
def toneDescription (tone : String) : String :=
  if tone = "tense" then "The conversation has become tense."
  else if tone = "positive" then "The mood is positive."
  else if tone = "somber" then "The atmosphere is somber."
  else if tone = "inquisitive" then "Questions are being raised."
  else ""

/-- The `linesByActor` map of `summarizeScene`: groups the recent lines by actor id,
keyed in order of first appearance (JS `Map` insertion order). -/
def groupByActor (ls : List Line) : List (String × List Line) :=
  ls.foldl (fun acc l =>
    if acc.any (fun p => p.1 == l.actorId) then
      acc.map (fun p => if p.1 == l.actorId then (p.1, p.2 ++ [l]) else p)
    else acc ++ [(l.actorId, [l])]) []

/-- One step of the stable descending-by-line-count sort used for
`mainSpeakers` (`sort((a, b) => b[1].length - a[1].length)`). -/
def insertByCount (x : String × List Line) :
    List (String × List Line) → List (String × List Line)
  | [] => [x]
  | y :: ys =>
    if y.2.length ≤ x.2.length then y :: insertByCount x ys
    else x :: y :: ys

/-- Stable sort of the actor groups by descending line count. -/
def sortByCountDesc : List (String × List Line) → List (String × List Line)
  | [] => []
  | x :: xs => insertByCount x (sortByCountDesc xs)

/-- An `actorMap.get` lookup followed by the fallback to the fixed
`Unknown` name (lines 37–40). -/
def actorName (actors : List Actor) (id : String) : String :=
  match (actors.reverse).find? (fun a => a.id == id) with
  | some a => a.name
  | none => "Unknown"

/-- The `mainSpeakers` local of `summarizeScene` (lines 34–40): up to the 3 actors
with the most recent lines, by name. -/
def mainSpeakersOf (lines : List Line) (actors : List Actor) : List String :=
  ((sortByCountDesc (groupByActor (lastTen lines))).take 3).map
    (fun p => actorName actors p.1)

/-- The "who is speaking" sentence (lines 61–69). -/
def speakerParts (mainSpeakers : List String) : List String :=
  match mainSpeakers with
  | [] => []
  | [a] => [s!"{a} has been speaking."]
  | [a, b] => [s!"{a} and {b} have been in dialogue."]
  | a :: b :: c :: _ => [s!"{a}, {b}, and {c} have been conversing."]

/-- The `keyPhrases` array of `summarizeScene` (lines 72–88). -/
def keyPhrasesOf (lines : List Line) : List String :=
  (lastTen lines).filterMap (fun line =>
    if strIncludes line.text "?" then some (jsTake line.text 80)
    else if matchAnyWord (toLowerStr line.text) intentWords || decide (50 < line.text.length) then
      some (jsTake line.text 80)
    else none)

/-- The "recent topics" sentence (lines 90–93). -/
def topicParts (keyPhrases : List String) : List String :=
  if 0 < keyPhrases.length then
    [s!"Recent topics include: {jsTake (joinSpace (keyPhrases.take 2)) 120}..."]
  else []

/-- The tone sentence (lines 96–104). -/
def toneParts (tone : String) : List String :=
  if tone = "neutral" then [] else [toneDescription tone]

/-- JS `new Set(recentLines.map(l => l.beatIndex)).size` (line 107). -/
def beatCountOf (lines : List Line) : Nat :=
  (((lastTen lines).map (fun l => l.beatIndex)).dedup).length

/-- The beat-progress sentence (lines 107–110). -/
def beatParts (beatCount : Nat) : List String :=
  if 1 < beatCount then
    [s!"The conversation has progressed through {beatCount} beats."]
  else []

/-- The previous-context sentence (lines 113–120). -/
def prevParts (prevSummary : String) : List String :=
  if prevSummary ≠ "" ∧ 0 < (jsTrim prevSummary).length then
    match (splitStr prevSummary (fun c => c = '.' || c = '!' || c = '?')).filter
        (fun s => 0 < (jsTrim s).length) with
    | [] => []
    | ps :: _ => [s!"Building on previous context: {jsTake ps 100}..."]
  else []

/-- The `summaryParts` array of `summarizeScene`, in push order. -/
def summaryPartsOf (prevSummary : String) (lines : List Line) (actors : List Actor) :
    List String :=
  speakerParts (mainSpeakersOf lines actors)
    ++ topicParts (keyPhrasesOf lines)
    ++ toneParts (toneOf (allTextOf lines))
    ++ beatParts (beatCountOf lines)
    ++ prevParts prevSummary

/-- The `finalSummary` local of `summarizeScene` (lines 122–126): the fresh
sentences, filtered of blanks, capped at 5 and joined by spaces. -/
def finalSummaryOf (prevSummary : String) (lines : List Line) (actors : List Actor) : String :=
  joinSpace
    (((summaryPartsOf prevSummary lines actors).filter
        (fun part => 0 < (jsTrim part).length)).take 5)

/-- The `summarizeScene` function from `src/lib/summarizeScene.ts`. -/
def summarizeScene (prevSummary : String) (lines : List Line) (actors : List Actor) : String :=
  if (lastTen lines).length = 0 then
    (if prevSummary = "" then "Scene is beginning." else prevSummary)
  else
    if (prevSummary ≠ "" ∧ 0 < (jsTrim prevSummary).length) ∧
        50 < (finalSummaryOf prevSummary lines actors).length then
      jsTake (prevSummary ++ " " ++ finalSummaryOf prevSummary lines actors) 800
    else
      (if finalSummaryOf prevSummary lines actors = ""
       then "Scene dialogue is progressing."
       else finalSummaryOf prevSummary lines actors)

/-! ## `src/lib/mockDirector.ts` (fallback generator) -/

/-- The text chosen for the `i`-th mock line (`generateMockLines`
lines 93–117); `hlen` witnesses that the roster is non-empty. -/
def mockText (actors : List Actor) (hlen : 0 < actors.length)
    (userCommand : String) (i : Nat) : String :=
  let actorIndex := i % actors.length
  let actor := actors.get ⟨actorIndex, Nat.mod_lt i hlen⟩
  let nextActor := actors.get ⟨(actorIndex + 1) % actors.length, Nat.mod_lt _ hlen⟩
  let an := actor.name
  let nn := nextActor.name
  let base :=
    if i = 0 then s!"Hey, {nn}, we need to talk."
    else if i = 1 then s!"What\x27s on your mind, {an}?"
    else if i = 2 then "I\x27ve been thinking about what you said earlier."
    else "Go on, I\x27m listening."
  let cmdLower := toLowerStr userCommand
  if strIncludes cmdLower "angry" || strIncludes cmdLower "mad" then
    (if i = 0 then "I\x27m really upset about this!" else "You have no right to be angry!")
  else if strIncludes cmdLower "happy" || strIncludes cmdLower "excited" then
    (if i = 0 then "This is amazing news!" else "I\x27m so happy to hear that!")
  else if strIncludes cmdLower "sad" then
    (if i = 0 then "I can\x27t believe this happened..." else "I\x27m sorry you feel that way.")
  else base

/-- The `generateMockLines` function from `src/lib/mockDirector.ts`.  `now` is the
`Date.now()` instant taken inside the function and `rand` feeds the
`Math.floor(Math.random() * 2)` draw (as `rand % 2`). -/
def generateMockLines (sceneState : SceneState) (userCommand : String)
    (currentBeatIndex : Nat) (now rand : Nat) : List Line :=
  let actors := sceneState.actors
  if hlen : actors.length = 0 then []
  else
    let numLines := 3 + rand % 2
    let beatIndex := currentBeatIndex + 1
    (List.range numLines).map (fun i =>
      { id := s!"line-{now}-{i}",
        actorId := (actors.get ⟨i % actors.length,
          Nat.mod_lt i (Nat.pos_of_ne_zero hlen)⟩).id,
        text := mockText actors (Nat.pos_of_ne_zero hlen) userCommand i,
        timestamp := now + i * 1000,
        beatIndex := beatIndex,
        audioUrl := "" })

/-! ## `src/lib/mockTTS.ts` -/

/-- The `generateAudioUrl` function from `src/lib/mockTTS.ts`. -/
def generateAudioUrl (lineId voiceId : String) : String :=
  s!"https://placeholder-audio.example.com/{voiceId}/{lineId}.mp3"

/-- The `processLinesWithTTS` function from `src/lib/mockTTS.ts`; the `Map` argument is a
key/value list of `(actor.id, actor.voiceId)` pairs. -/
def processLinesWithTTS (lines : List Line) (actors : List (String × String)) : List Line :=
  lines.map (fun line =>
    match mapGetLast actors line.actorId with
    | none => line
    | some voiceId => { line with audioUrl := generateAudioUrl line.id voiceId })

/-! ## `src/lib/sceneUtils.ts` -/

/-- The fixed 3-actor default roster of `createDefaultScene`. -/
def defaultActors : List Actor :=
  [{ id := "actor-1", name := "Alex", role := "protagonist", language := "en",
     voiceId := "21m00Tcm4TlvDq8ikWAM", style := "dramatic" },
   { id := "actor-2", name := "Sam", role := "antagonist", language := "en",
     voiceId := "pNInz6obpgDQGcFmaJgB", style := "neutral" },
   { id := "actor-3", name := "Jordan", role := "supporting", language := "en",
     voiceId := "EXAVITQu4vr4xnSDxMaL", style := "comedic" }]

/-- The `createDefaultScene` function from `src/lib/sceneUtils.ts` (the scene built by
the handler when no prior state is supplied). -/
def createDefaultScene (now : Nat) : SceneState :=
  { id := s!"scene-{now}", title := "Untitled Scene", genre := "drama",
    setting := "A neutral location", logline := "A scene begins.",
    summary := "Initial scene setup. Ready for dialogue.",
    actors := defaultActors, lines := [], createdAt := now, updatedAt := now }

/-! ## `src/pages/api/scene/turn.ts` -/

/-- JS `Math.max(...lines.map(l => l.beatIndex), 0)`. -/
def maxBeat (lines : List Line) : Nat :=
  lines.foldl (fun m l => max m l.beatIndex) 0

/-- The scene the handler starts from (turn.ts lines 39–47). -/
def initialState (sceneState? : Option SceneState) (now : Nat) : SceneState :=
  match sceneState? with
  | none => createDefaultScene now
  | some s => s

/-- The `currentBeatIndex` local of the handler (turn.ts lines 41–46). -/
def initialBeat (sceneState? : Option SceneState) : Nat :=
  match sceneState? with
  | none => 0
  | some s => if 0 < s.lines.length then maxBeat s.lines else 0

/-- The scene-metadata update (turn.ts lines 113–118). -/
def applyMetadata (st : SceneState) (r : DirectorResponse) : SceneState :=
  match r.sceneMetadata with
  | some m => { st with title := m.title, genre := m.genre,
                        setting := m.setting, logline := m.logline }
  | none => st

/-- The actor-patch update (turn.ts lines 120–137): patches are applied only
to matching existing actor ids, via a JS `Map` keyed by update id. -/
def applyActorUpdates (st : SceneState) (r : DirectorResponse) : SceneState :=
  match r.updatedActors with
  | some ups =>
    if 0 < ups.length then
      { st with actors := st.actors.map (fun actor =>
          match mapGetLast (ups.map (fun u => (u.id, u))) actor.id with
          | some u => { actor with language := convertLanguage u.language,
                                   style := u.style }
          | none => actor) }
    else st
  | none => st

/-- The scene after both updates of the primary path. -/
def patchedState (st : SceneState) (r : DirectorResponse) : SceneState :=
  applyActorUpdates (applyMetadata st r) r

/-- The `newLines.map((line, index) => …)` loop of the primary path
(turn.ts lines 171–193): advances the running beat counter by
`beatDelta === 1` before assignment, validates the actor id against the
roster (throwing on failure, modelled as `Except.error`), and builds the
`Line` records.  `index` threads the running array index for the generated
ids and timestamps. -/
def mkLines (actors : List Actor) (now : Nat) :
    Nat → Nat → List Directive → Except Unit (List Line)
  | _, _, [] => Except.ok []
  | beat, index, d :: rest =>
    let beat2 := if d.beatDelta == 1 then beat + 1 else beat
    match actors.find? (fun a => a.id == d.actorId) with
    | none => Except.error ()
    | some _ =>
      match mkLines actors now beat2 (index + 1) rest with
      | Except.error e => Except.error e
      | Except.ok ls =>
        Except.ok ({ id := s!"line-{now}-{index}", actorId := d.actorId,
                     text := d.text, timestamp := now + index * 1000,
                     beatIndex := beat2, audioUrl := "" } :: ls)

/-- One ElevenLabs synthesis attempt for a built line (turn.ts
lines 205–229): looks the actor up in the `Map` of the roster, resolves the
language by re-finding the directive with matching actor id and text in the
full `newLines` array, and on failure returns the line unchanged. -/
def synthStep (actors : List Actor) (allDirectives : List Directive)
    (synth : Nat → String → String → String → Option String)
    (line : Line) (i : Nat) : Line :=
  match (actors.reverse).find? (fun a => a.id == line.actorId) with
  | none => line
  | some actor =>
    let lineLanguage :=
      (allDirectives.find? (fun dl =>
        dl.actorId == line.actorId && dl.text == line.text)).map (fun dl => dl.language)
    let languageToUse :=
      match lineLanguage with
      | some l => convertLanguage l
      | none => actor.language
    match synth i line.text actor.voiceId languageToUse with
    | some url => { line with audioUrl := url }
    | none => line

/-- The `Promise.all` fan-out over all built lines (turn.ts lines 204–230);
`i` numbers the synthesis calls of the turn. -/
def synthAll (actors : List Actor) (allDirectives : List Directive)
    (synth : Nat → String → String → String → Option String) :
    Nat → List Line → List Line
  | _, [] => []
  | i, l :: rest =>
    synthStep actors allDirectives synth l i
      :: synthAll actors allDirectives synth (i + 1) rest

/-- The catch-block fallback of the handler (turn.ts lines 84–109): mock
lines, mock TTS, summarization, and a successful response. -/
def fallbackTurn (st : SceneState) (userCommand : String)
    (beat now now2 rand : Nat) : SceneState × List Line :=
  let newLines := generateMockLines st userCommand beat now rand
  let linesWithAudio :=
    processLinesWithTTS newLines (st.actors.map (fun a => (a.id, a.voiceId)))
  let updatedLines := st.lines ++ linesWithAudio
  ({ st with lines := updatedLines,
             summary := summarizeScene st.summary updatedLines st.actors,
             updatedAt := now2 }, linesWithAudio)

/-- The primary path of the handler (turn.ts lines 113–258): metadata and
actor patches, the zero-lines check (line 147), the cap to the first 6
directives (line 168), line construction with beat assignment and actor-id
validation, parallel synthesis, and the summarized, appended scene. -/
def primaryTurn (st0 : SceneState) (r : DirectorResponse)
    (synth : Nat → String → String → String → Option String)
    (beat now now2 : Nat) : Except Unit (SceneState × List Line) :=
  if r.newLines.length = 0 then Except.error () else
  match mkLines (patchedState st0 r).actors now beat 0 (r.newLines.take 6) with
  | Except.error e => Except.error e
  | Except.ok ls =>
    let linesWithAudio := synthAll (patchedState st0 r).actors r.newLines synth 0 ls
    Except.ok ({ patchedState st0 r with
                  lines := (patchedState st0 r).lines ++ linesWithAudio,
                  summary := summarizeScene (patchedState st0 r).summary
                    ((patchedState st0 r).lines ++ linesWithAudio)
                    (patchedState st0 r).actors,
                  updatedAt := now2 }, linesWithAudio)

/-- The turn handler of `src/pages/api/scene/turn.ts` (`processTurn` of the
specification), as the function from the request body and the external
events to the HTTP outcome: `Except.error` is the 400/500 error response
(which carries no scene state), `Except.ok` the 200 response with the
updated scene and the newly appended lines. -/
def handler (sceneState? : Option SceneState) (userCommand : String)
    (dirResult : Except Unit DirectorResponse)
    (synth : Nat → String → String → String → Option String)
    (now now2 rand : Nat) : Except Unit (SceneState × List Line) :=
  if userCommand = "" then Except.error () else
  let cur := initialState sceneState? now
  let beat := initialBeat sceneState?
  match dirResult with
  | Except.error _ => Except.ok (fallbackTurn cur userCommand beat now now2 rand)
  | Except.ok r => primaryTurn cur r synth beat now now2

/-! ## Helper lemmas -/

theorem isInfixOfB_iff (needle hay : List Char) :
    isInfixOfB needle hay = true ↔ needle <:+: hay := by
  induction hay with
  | nil =>
    simp only [isInfixOfB, List.isEmpty_iff, List.infix_nil]
  | cons c rest ih =>
    simp only [isInfixOfB, Bool.or_eq_true, ih, List.isPrefixOf_iff_prefix]
    exact (List.infix_cons_iff).symm

theorem strIncludes_iff (s sub : String) :
    strIncludes s sub = true ↔ sub.data <:+: s.data := isInfixOfB_iff sub.data s.data

theorem strIncludes_self (s : String) : strIncludes s s = true :=
  (strIncludes_iff s s).mpr (List.infix_refl s.data)

theorem strIncludes_append_left {a x : String} (b : String)
    (h : strIncludes a x = true) : strIncludes (a ++ b) x = true := by
  rw [strIncludes_iff] at *
  rw [String.data_append]
  exact h.trans ⟨[], b.data, by simp⟩

theorem strIncludes_append_right {b x : String} (a : String)
    (h : strIncludes b x = true) : strIncludes (a ++ b) x = true := by
  rw [strIncludes_iff] at *
  rw [String.data_append]
  exact h.trans ⟨a.data, [], by simp⟩

theorem strIncludes_joinSpace {parts : List String} {x : String}
    (h : x ∈ parts) : strIncludes (joinSpace parts) x = true := by
  induction parts with
  | nil => cases h
  | cons p rest ih =>
    cases rest with
    | nil =>
      rcases List.mem_cons.mp h with h | h
      · subst h; exact strIncludes_self x
      · cases h
    | cons q rest' =>
      rcases List.mem_cons.mp h with h | h
      · subst h
        show strIncludes (x ++ " " ++ joinSpace (q :: rest')) x = true
        exact strIncludes_append_left _ (strIncludes_append_left _ (strIncludes_self x))
      · show strIncludes (p ++ " " ++ joinSpace (q :: rest')) x = true
        exact strIncludes_append_right _ (ih h)

theorem ne_empty_of_strIncludes {s x : String} (hx : x ≠ "")
    (h : strIncludes s x = true) : s ≠ "" := by
  intro hs
  subst hs
  rw [strIncludes_iff] at h
  have hnil : x.data = [] := List.sublist_nil.mp h.sublist
  apply hx
  cases x with
  | mk d =>
    subst hnil
    rfl

theorem foldl_max_le_init (lines : List Line) :
    ∀ b : Nat, b ≤ lines.foldl (fun m l => max m l.beatIndex) b := by
  induction lines with
  | nil => intro b; simp
  | cons l rest ih =>
    intro b
    exact le_trans (Nat.le_max_left _ _) (ih (max b l.beatIndex))

theorem le_foldl_max {lines : List Line} {l : Line} (h : l ∈ lines) :
    ∀ b : Nat, l.beatIndex ≤ lines.foldl (fun m x => max m x.beatIndex) b := by
  induction lines with
  | nil => cases h
  | cons x rest ih =>
    intro b
    rcases List.mem_cons.mp h with h | h
    · subst h
      exact le_trans (Nat.le_max_right b l.beatIndex) (foldl_max_le_init rest _)
    · exact ih h _

theorem le_maxBeat {lines : List Line} {l : Line} (h : l ∈ lines) :
    l.beatIndex ≤ maxBeat lines :=
  le_foldl_max h 0

theorem initialBeat_some (s : SceneState) : initialBeat (some s) = maxBeat s.lines := by
  unfold initialBeat
  cases hl : s.lines with
  | nil => simp [maxBeat, hl]
  | cons x rest => simp [hl]

theorem mem_take_of_length_le {α : Type} {l : List α} {x : α} {n : Nat}
    (h : x ∈ l) (hl : l.length ≤ n) : x ∈ l.take n := by
  rw [List.take_of_length_le hl]
  exact h

theorem mkLines_length {actors : List Actor} {now : Nat} :
    ∀ {beat index : Nat} {ds : List Directive} {ls : List Line},
      mkLines actors now beat index ds = Except.ok ls → ls.length = ds.length := by
  intro beat index ds
  induction ds generalizing beat index with
  | nil =>
    intro ls h
    simp only [mkLines] at h
    cases h
    rfl
  | cons d rest ih =>
    intro ls h
    simp only [mkLines] at h
    cases hf : actors.find? (fun a => a.id == d.actorId) with
    | none => rw [hf] at h; cases h
    | some a =>
      rw [hf] at h
      cases hr : mkLines actors now (if d.beatDelta == 1 then beat + 1 else beat)
          (index + 1) rest with
      | error e => rw [hr] at h; cases h
      | ok tl =>
        rw [hr] at h
        cases h
        simpa using ih hr

theorem mkLines_forall {actors : List Actor} {now : Nat} :
    ∀ {beat index : Nat} {ds : List Directive} {ls : List Line},
      mkLines actors now beat index ds = Except.ok ls →
      ∀ l ∈ ls, l.audioUrl = "" ∧ beat ≤ l.beatIndex ∧
        (∃ a ∈ actors, a.id = l.actorId) ∧
        (∃ d ∈ ds, l.actorId = d.actorId ∧ l.text = d.text) := by
  intro beat index ds
  induction ds generalizing beat index with
  | nil =>
    intro ls h
    simp only [mkLines] at h
    cases h
    intro l hl
    cases hl
  | cons d rest ih =>
    intro ls h
    simp only [mkLines] at h
    cases hf : actors.find? (fun a => a.id == d.actorId) with
    | none => rw [hf] at h; cases h
    | some a =>
      rw [hf] at h
      cases hr : mkLines actors now (if d.beatDelta == 1 then beat + 1 else beat)
          (index + 1) rest with
      | error e => rw [hr] at h; cases h
      | ok tl =>
        rw [hr] at h
        cases h
        intro l hl
        rcases List.mem_cons.mp hl with hl | hl
        · subst hl
          refine ⟨rfl, ?_, ?_, ?_⟩
          · show beat ≤ if d.beatDelta == 1 then beat + 1 else beat
            split <;> omega
          · refine ⟨a, List.mem_of_find?_eq_some hf, ?_⟩
            have := List.find?_some hf
            simpa using this
          · exact ⟨d, List.mem_cons_self d rest, rfl, rfl⟩
        · rcases ih hr l hl with ⟨h1, h2, h3, d', hd', h4⟩
          refine ⟨h1, ?_, h3, d', List.mem_cons_of_mem d hd', h4⟩
          refine le_trans ?_ h2
          split <;> omega

theorem mkLines_get_beat {actors : List Actor} {now : Nat} :
    ∀ {beat index : Nat} {ds : List Directive} {ls : List Line},
      mkLines actors now beat index ds = Except.ok ls →
      ∀ i (hi : i < ls.length),
        (ls.get ⟨i, hi⟩).beatIndex
          = beat + (ds.take (i + 1)).countP (fun d => d.beatDelta == 1) := by
  intro beat index ds
  induction ds generalizing beat index with
  | nil =>
    intro ls h
    simp only [mkLines] at h
    cases h
    intro i hi
    cases hi
  | cons d rest ih =>
    intro ls h
    simp only [mkLines] at h
    cases hf : actors.find? (fun a => a.id == d.actorId) with
    | none => rw [hf] at h; cases h
    | some a =>
      rw [hf] at h
      cases hr : mkLines actors now (if d.beatDelta == 1 then beat + 1 else beat)
          (index + 1) rest with
      | error e => rw [hr] at h; cases h
      | ok tl =>
        rw [hr] at h
        cases h
        intro i hi
        cases i with
        | zero =>
          show (if d.beatDelta == 1 then beat + 1 else beat)
            = beat + ((d :: rest).take 1).countP (fun d => d.beatDelta == 1)
          simp only [List.take_succ_cons, List.take_zero, List.countP_cons, List.countP_nil]
          split <;> simp_all
        | succ j =>
          have hj : j < tl.length := by simpa using hi
          have := ih hr j hj
          show (tl.get ⟨j, hj⟩).beatIndex
            = beat + ((d :: rest).take (j + 1 + 1)).countP (fun d => d.beatDelta == 1)
          rw [this]
          simp only [List.take_succ_cons, List.countP_cons]
          split <;> simp_all <;> omega

theorem mkLines_error_of_bad {actors : List Actor} {now : Nat} :
    ∀ {beat index : Nat} {ds : List Directive},
      (∃ d ∈ ds, actors.find? (fun a => a.id == d.actorId) = none) →
      mkLines actors now beat index ds = Except.error () := by
  intro beat index ds
  induction ds generalizing beat index with
  | nil =>
    intro h
    rcases h with ⟨d, hd, _⟩
    cases hd
  | cons d rest ih =>
    intro h
    simp only [mkLines]
    rcases h with ⟨d', hd', hbad⟩
    rcases List.mem_cons.mp hd' with hd' | hd'
    · subst hd'
      rw [hbad]
    · cases hf : actors.find? (fun a => a.id == d.actorId) with
      | none => rfl
      | some a =>
        rw [ih ⟨d', hd', hbad⟩]

theorem synthStep_fields (actors : List Actor) (dirs : List Directive)
    (synth : Nat → String → String → String → Option String) (l : Line) (i : Nat) :
    (synthStep actors dirs synth l i).actorId = l.actorId ∧
    (synthStep actors dirs synth l i).beatIndex = l.beatIndex ∧
    { synthStep actors dirs synth l i with audioUrl := l.audioUrl } = l := by
  unfold synthStep
  cases (actors.reverse).find? (fun a => a.id == l.actorId) with
  | none => exact ⟨rfl, rfl, by cases l; rfl⟩
  | some actor =>
    simp only
    cases synth i l.text actor.voiceId _ with
    | none => exact ⟨rfl, rfl, by cases l; rfl⟩
    | some url => exact ⟨rfl, rfl, by cases l; rfl⟩

theorem synthAll_length (actors : List Actor) (dirs : List Directive)
    (synth : Nat → String → String → String → Option String) :
    ∀ (n : Nat) (ls : List Line), (synthAll actors dirs synth n ls).length = ls.length := by
  intro n ls
  induction ls generalizing n with
  | nil => rfl
  | cons l rest ih => simp [synthAll, ih]

theorem synthAll_get (actors : List Actor) (dirs : List Directive)
    (synth : Nat → String → String → String → Option String) :
    ∀ (n : Nat) (ls : List Line) (i : Nat) (hi : i < ls.length)
      (hi' : i < (synthAll actors dirs synth n ls).length),
      (synthAll actors dirs synth n ls).get ⟨i, hi'⟩
        = synthStep actors dirs synth (ls.get ⟨i, hi⟩) (n + i) := by
  intro n ls
  induction ls generalizing n with
  | nil => intro i hi; cases hi
  | cons l rest ih =>
    intro i hi hi'
    cases i with
    | zero => rfl
    | succ j =>
      have hj : j < rest.length := by simpa using hi
      have hj' : j < (synthAll actors dirs synth (n + 1) rest).length := by
        simp only [synthAll, List.length_cons] at hi'
        omega
      have := ih (n + 1) j hj hj'
      simp only [synthAll, List.get_cons_succ]
      rw [this]
      congr 1
      omega

theorem synthAll_map_beat (actors : List Actor) (dirs : List Directive)
    (synth : Nat → String → String → String → Option String) :
    ∀ (n : Nat) (ls : List Line),
      (synthAll actors dirs synth n ls).map (fun l => l.beatIndex)
        = ls.map (fun l => l.beatIndex) := by
  intro n ls
  induction ls generalizing n with
  | nil => rfl
  | cons l rest ih =>
    simp only [synthAll, List.map_cons, ih]
    rw [(synthStep_fields actors dirs synth l n).2.1]

theorem synthAll_map_actorId (actors : List Actor) (dirs : List Directive)
    (synth : Nat → String → String → String → Option String) :
    ∀ (n : Nat) (ls : List Line),
      (synthAll actors dirs synth n ls).map (fun l => l.actorId)
        = ls.map (fun l => l.actorId) := by
  intro n ls
  induction ls generalizing n with
  | nil => rfl
  | cons l rest ih =>
    simp only [synthAll, List.map_cons, ih]
    rw [(synthStep_fields actors dirs synth l n).1]

theorem synthAll_congr_dirs {actors : List Actor} {dirs dirs' : List Directive}
    {synth : Nat → String → String → String → Option String} :
    ∀ {ls : List Line} (n : Nat),
      (∀ l ∈ ls,
        dirs.find? (fun dl => dl.actorId == l.actorId && dl.text == l.text)
          = dirs'.find? (fun dl => dl.actorId == l.actorId && dl.text == l.text)) →
      synthAll actors dirs synth n ls = synthAll actors dirs' synth n ls := by
  intro ls
  induction ls with
  | nil => intro n _; rfl
  | cons l rest ih =>
    intro n h
    simp only [synthAll]
    have h1 : synthStep actors dirs synth l n = synthStep actors dirs' synth l n := by
      unfold synthStep
      rw [h l (List.mem_cons_self l rest)]
    rw [h1, ih (n + 1) (fun x hx => h x (List.mem_cons_of_mem l hx))]

theorem applyMetadata_parts (st : SceneState) (r : DirectorResponse) :
    (applyMetadata st r).lines = st.lines ∧
    (applyMetadata st r).actors = st.actors ∧
    (applyMetadata st r).summary = st.summary := by
  unfold applyMetadata
  cases r.sceneMetadata <;> exact ⟨rfl, rfl, rfl⟩

theorem applyActorUpdates_parts (st : SceneState) (r : DirectorResponse) :
    (applyActorUpdates st r).lines = st.lines ∧
    (applyActorUpdates st r).actors.map (fun a => a.id) = st.actors.map (fun a => a.id) ∧
    (applyActorUpdates st r).summary = st.summary ∧
    (applyActorUpdates st r).genre = st.genre := by
  unfold applyActorUpdates
  cases r.updatedActors with
  | none => exact ⟨rfl, rfl, rfl, rfl⟩
  | some ups =>
    simp only
    split
    · refine ⟨rfl, ?_, rfl, rfl⟩
      simp only [List.map_map]
      apply List.map_congr_left
      intro a _
      simp only [Function.comp]
      cases mapGetLast (ups.map (fun u => (u.id, u))) a.id <;> rfl
    · exact ⟨rfl, rfl, rfl, rfl⟩

theorem patchedState_parts (st : SceneState) (r : DirectorResponse) :
    (patchedState st r).lines = st.lines ∧
    (patchedState st r).actors.map (fun a => a.id) = st.actors.map (fun a => a.id) ∧
    (patchedState st r).summary = st.summary := by
  unfold patchedState
  rcases applyActorUpdates_parts (applyMetadata st r) r with ⟨h1, h2, h3, _⟩
  rcases applyMetadata_parts st r with ⟨g1, g2, g3⟩
  exact ⟨h1.trans g1, by rw [h2, g2], h3.trans g3⟩

theorem patchedState_genre (st : SceneState) (r : DirectorResponse) :
    (patchedState st r).genre
      = (match r.sceneMetadata with
         | some m => m.genre
         | none => st.genre) := by
  unfold patchedState
  rcases applyActorUpdates_parts (applyMetadata st r) r with ⟨_, _, _, h4⟩
  rw [h4]
  unfold applyMetadata
  cases r.sceneMetadata <;> rfl

theorem gml_of_empty (s : SceneState) (cmd : String) (beat now rand : Nat)
    (h : s.actors = []) : generateMockLines s cmd beat now rand = [] := by
  unfold generateMockLines
  rw [dif_pos (by simp [h])]

theorem gml_parts (s : SceneState) (cmd : String) (beat now rand : Nat)
    (h : s.actors ≠ []) :
    (generateMockLines s cmd beat now rand).length = 3 + rand % 2 ∧
    ∀ l ∈ generateMockLines s cmd beat now rand,
      l.beatIndex = beat + 1 ∧ ∃ a ∈ s.actors, a.id = l.actorId := by
  unfold generateMockLines
  have hlen : ¬ (s.actors.length = 0) := by
    simpa [List.length_eq_zero] using h
  rw [dif_neg hlen]
  constructor
  · simp
  · intro l hl
    rcases List.mem_map.mp hl with ⟨i, _, heq⟩
    subst heq
    exact ⟨rfl, _, List.get_mem _ _ _, rfl⟩

theorem processTTS_fields (ls : List Line) (m : List (String × String)) :
    (processLinesWithTTS ls m).length = ls.length ∧
    (processLinesWithTTS ls m).map (fun l => l.beatIndex)
      = ls.map (fun l => l.beatIndex) ∧
    (processLinesWithTTS ls m).map (fun l => l.actorId)
      = ls.map (fun l => l.actorId) := by
  refine ⟨List.length_map _ _, ?_, ?_⟩ <;>
  · simp only [processLinesWithTTS, List.map_map]
    apply List.map_congr_left
    intro l _
    simp only [Function.comp]
    cases mapGetLast m l.actorId <;> rfl

theorem fallbackTurn_eq (st : SceneState) (cmd : String) (beat now now2 rand : Nat) :
    (fallbackTurn st cmd beat now now2 rand).2
      = processLinesWithTTS (generateMockLines st cmd beat now rand)
          (st.actors.map (fun a => (a.id, a.voiceId))) ∧
    (fallbackTurn st cmd beat now now2 rand).1.lines
      = st.lines ++ (fallbackTurn st cmd beat now now2 rand).2 ∧
    (fallbackTurn st cmd beat now now2 rand).1.actors = st.actors ∧
    (fallbackTurn st cmd beat now now2 rand).1.genre = st.genre :=
  ⟨rfl, rfl, rfl, rfl⟩

theorem primaryTurn_ok {st0 : SceneState} {r : DirectorResponse}
    {synth : Nat → String → String → String → Option String}
    {beat now now2 : Nat} {st : SceneState} {out : List Line}
    (h : primaryTurn st0 r synth beat now now2 = Except.ok (st, out)) :
    0 < r.newLines.length ∧
    ∃ ls, mkLines (patchedState st0 r).actors now beat 0 (r.newLines.take 6)
        = Except.ok ls ∧
      out = synthAll (patchedState st0 r).actors r.newLines synth 0 ls ∧
      st = { patchedState st0 r with
              lines := (patchedState st0 r).lines ++ out,
              summary := summarizeScene (patchedState st0 r).summary
                ((patchedState st0 r).lines ++ out) (patchedState st0 r).actors,
              updatedAt := now2 } := by
  unfold primaryTurn at h
  split at h
  · cases h
  · next hne =>
    refine ⟨Nat.pos_of_ne_zero hne, ?_⟩
    split at h
    · cases h
    · next ls hmk =>
      injection h with h
      injection h with h1 h2
      subst h2
      subst h1
      exact ⟨ls, hmk, rfl, rfl⟩

theorem handler_ok {s? : Option SceneState} {cmd : String}
    {dir : Except Unit DirectorResponse}
    {synth : Nat → String → String → String → Option String} {now now2 rand : Nat}
    {st : SceneState} {out : List Line}
    (h : handler s? cmd dir synth now now2 rand = Except.ok (st, out)) :
    cmd ≠ "" ∧
    ((dir = Except.error () ∧
        (st, out) = fallbackTurn (initialState s? now) cmd (initialBeat s?) now now2 rand) ∨
     (∃ r, dir = Except.ok r ∧
        primaryTurn (initialState s? now) r synth (initialBeat s?) now now2
          = Except.ok (st, out))) := by
  unfold handler at h
  split at h
  · cases h
  · next hcmd =>
    refine ⟨hcmd, ?_⟩
    cases dir with
    | error e =>
      cases e
      left
      exact ⟨rfl, (Except.ok.inj h).symm⟩
    | ok r =>
      right
      exact ⟨r, rfl, h⟩

/-! ## Concrete inputs used by counterexamples and witnesses -/

/-- A valid scene with an empty actor roster (and hence no lines). -/
def zeroActorScene : SceneState :=
  { id := "scene-z", title := "T", genre := "drama", setting := "S",
    logline := "L", summary := "", actors := [], lines := [],
    createdAt := 0, updatedAt := 0 }

/-- A single test actor. -/
def wActor1 : Actor :=
  { id := "a1", name := "Ann", role := "protagonist", language := "en",
    voiceId := "v1", style := "calm" }

/-- A one-actor scene with no lines. -/
def oneActorScene : SceneState :=
  { id := "scene-1", title := "T", genre := "drama", setting := "S",
    logline := "L", summary := "", actors := [wActor1], lines := [],
    createdAt := 0, updatedAt := 0 }

/-- A directive naming the existing actor `a1`. -/
def okDirective : Directive :=
  { actorId := "a1", language := "en", text := "Hello there.", beatDelta := 1 }

/-- A directive naming an actor id absent from every test roster. -/
def badDirective : Directive :=
  { actorId := "ghost", language := "en", text := "Boo.", beatDelta := 0 }

/-- A Director response with 7 directives whose 7th names an unknown actor. -/
def sevenLineResponse : DirectorResponse :=
  { sceneMetadata := some { title := "T2", genre := "thriller", setting := "S2",
                            logline := "L2" },
    updatedActors := none,
    newLines := [okDirective, okDirective, okDirective, okDirective, okDirective,
                 okDirective, badDirective] }

/-- A Director response consisting of a single invalid directive. -/
def badOnlyResponse : DirectorResponse :=
  { sceneMetadata := none, updatedActors := none, newLines := [badDirective] }

/-- An 801-character previous summary. -/
def p801 : String := "aaaaaaaaaaaaaaaaaaaaaaaaaaaaaaaaaaaaaaaaaaaaaaaaaaaaaaaaaaaaaaaaaaaaaaaaaaaaaaaaaaaaaaaaaaaaaaaaaaaaaaaaaaaaaaaaaaaaaaaaaaaaaaaaaaaaaaaaaaaaaaaaaaaaaaaaaaaaaaaaaaaaaaaaaaaaaaaaaaaaaaaaaaaaaaaaaaaaaaaaaaaaaaaaaaaaaaaaaaaaaaaaaaaaaaaaaaaaaaaaaaaaaaaaaaaaaaaaaaaaaaaaaaaaaaaaaaaaaaaaaaaaaaaaaaaaaaaaaaaaaaaaaaaaaaaaaaaaaaaaaaaaaaaaaaaaaaaaaaaaaaaaaaaaaaaaaaaaaaaaaaaaaaaaaaaaaaaaaaaaaaaaaaaaaaaaaaaaaaaaaaaaaaaaaaaaaaaaaaaaaaaaaaaaaaaaaaaaaaaaaaaaaaaaaaaaaaaaaaaaaaaaaaaaaaaaaaaaaaaaaaaaaaaaaaaaaaaaaaaaaaaaaaaaaaaaaaaaaaaaaaaaaaaaaaaaaaaaaaaaaaaaaaaaaaaaaaaaaaaaaaaaaaaaaaaaaaaaaaaaaaaaaaaaaaaaaaaaaaaaaaaaaaaaaaaaaaaaaaaaaaaaaaaaaaaaaaaaaaaaaaaaaaaaaaaaaaaaaaaaaaaaaaaaaaaaaaaaaaaaaaaaaaaaaaaaaaaaaaaaaaaaaaaaaaaaaaaaaaaaaaaaaaaaaaaaaaaaaaaaaaaaaaaaaaaaaaaaaaaaaaaaaaaaaaaaaaaaaaaaaaaaaaaaaaaaaaaaaaaaa"

/-- An 800-character previous summary. -/
def p800 : String := "aaaaaaaaaaaaaaaaaaaaaaaaaaaaaaaaaaaaaaaaaaaaaaaaaaaaaaaaaaaaaaaaaaaaaaaaaaaaaaaaaaaaaaaaaaaaaaaaaaaaaaaaaaaaaaaaaaaaaaaaaaaaaaaaaaaaaaaaaaaaaaaaaaaaaaaaaaaaaaaaaaaaaaaaaaaaaaaaaaaaaaaaaaaaaaaaaaaaaaaaaaaaaaaaaaaaaaaaaaaaaaaaaaaaaaaaaaaaaaaaaaaaaaaaaaaaaaaaaaaaaaaaaaaaaaaaaaaaaaaaaaaaaaaaaaaaaaaaaaaaaaaaaaaaaaaaaaaaaaaaaaaaaaaaaaaaaaaaaaaaaaaaaaaaaaaaaaaaaaaaaaaaaaaaaaaaaaaaaaaaaaaaaaaaaaaaaaaaaaaaaaaaaaaaaaaaaaaaaaaaaaaaaaaaaaaaaaaaaaaaaaaaaaaaaaaaaaaaaaaaaaaaaaaaaaaaaaaaaaaaaaaaaaaaaaaaaaaaaaaaaaaaaaaaaaaaaaaaaaaaaaaaaaaaaaaaaaaaaaaaaaaaaaaaaaaaaaaaaaaaaaaaaaaaaaaaaaaaaaaaaaaaaaaaaaaaaaaaaaaaaaaaaaaaaaaaaaaaaaaaaaaaaaaaaaaaaaaaaaaaaaaaaaaaaaaaaaaaaaaaaaaaaaaaaaaaaaaaaaaaaaaaaaaaaaaaaaaaaaaaaaaaaaaaaaaaaaaaaaaaaaaaaaaaaaaaaaaaaaaaaaaaaaaaaaaaaaaaaaaaaaaaaaaaaaaaaaaaaaaaaaaaaaaaaaaaaaaaaaaa"

/-- A line whose text contains the anger keyword `angry`. -/
def wAngryLine : Line :=
  { id := "l1", actorId := "a1", text := "angry", timestamp := 0,
    beatIndex := 0, audioUrl := "" }

/-! ## C7 -/

/-- C7: the fallback generator never fails: with zero actors it returns zero
lines, and with at least one actor it returns between 2 and 4 lines, each of
whose `actorId`s is the id of an existing actor of the scene (for every
random draw `rand` and instant `now`). -/
theorem manchai_C7 (s : SceneState) (cmd : String) (beat now rand : Nat) :
    (s.actors = [] → generateMockLines s cmd beat now rand = []) ∧
    (s.actors ≠ [] →
      2 ≤ (generateMockLines s cmd beat now rand).length ∧
      (generateMockLines s cmd beat now rand).length ≤ 4 ∧
      ∀ l ∈ generateMockLines s cmd beat now rand, ∃ a ∈ s.actors, a.id = l.actorId) := by
  constructor
  · exact fun h => gml_of_empty s cmd beat now rand h
  · intro h
    rcases gml_parts s cmd beat now rand h with ⟨hlen, hmem⟩
    refine ⟨by omega, by omega, ?_⟩
    intro l hl
    exact (hmem l hl).2

/-- C7 witness: on a concrete one-actor scene the fallback produces between
2 and 4 lines. -/
theorem manchai_C7_witness :
    2 ≤ (generateMockLines oneActorScene "hi" 0 5 0).length ∧
    (generateMockLines oneActorScene "hi" 0 5 0).length ≤ 4 :=
  ⟨((manchai_C7 oneActorScene "hi" 0 5 0).2 (by decide)).1,
   ((manchai_C7 oneActorScene "hi" 0 5 0).2 (by decide)).2.1⟩

/-! ## C5 -/

set_option maxRecDepth 10000 in
/-- C5 counterexample: `summarizeScene` applied to an empty line list and an
801-character previous summary returns that summary unchanged, so its output
exceeds 800 characters, refuting the claim that every output is at most 800
characters long. -/
theorem manchai_C5_cex : 800 < (summarizeScene p801 [] []).length := by decide

/-- C5 (amended): `summarizeScene` is a pure function; with empty `lines`
and empty `prevSummary` it returns the fixed phrase `Scene is beginning.`;
and the 800-character cap holds on the branch that prepends a non-blank
previous summary to a fresh summary longer than 50 characters (on the other
branches the output is not truncated and can exceed 800 characters). -/
theorem manchai_C5_amended (p : String) (lines : List Line) (actors : List Actor) :
    (∀ p2 lines2 actors2, p2 = p → lines2 = lines → actors2 = actors →
      summarizeScene p2 lines2 actors2 = summarizeScene p lines actors) ∧
    summarizeScene "" [] actors = "Scene is beginning." ∧
    (lines ≠ [] → 0 < (jsTrim p).length →
      50 < (finalSummaryOf p lines actors).length →
      (summarizeScene p lines actors).length ≤ 800) := by
  refine ⟨?_, rfl, ?_⟩
  · intro p2 l2 a2 h1 h2 h3
    rw [h1, h2, h3]
  · intro hne hp hf
    unfold summarizeScene
    have hlen : ¬ ((lastTen lines).length = 0) := by
      simp only [lastTen, List.length_drop]
      have := List.length_pos.mpr hne
      omega
    rw [if_neg hlen]
    have hpne : p ≠ "" := by
      intro h
      subst h
      exact absurd hp (by decide)
    rw [if_pos ⟨⟨hpne, hp⟩, hf⟩]
    show (String.mk ((p ++ " " ++ finalSummaryOf p lines actors).data.take 800)).length ≤ 800
    show ((p ++ " " ++ finalSummaryOf p lines actors).data.take 800).length ≤ 800
    rw [List.length_take]
    omega

/-- C5 amended witness: a concrete input taking the truncating branch. -/
theorem manchai_C5_amended_witness :
    (summarizeScene "x" [wAngryLine] [wActor1]).length ≤ 800 :=
  (manchai_C5_amended "x" [wAngryLine] [wActor1]).2.2 (by decide) (by decide) (by decide)

theorem initialState_some (s : SceneState) (now : Nat) :
    initialState (some s) now = s := rfl

/-! ## C1 -/

/-- C1 counterexample: a valid scene with an empty actor roster, on the
fallback path (Director call failed), yields a *successful* turn whose
`lines` equal the input's `lines` (the fallback generates zero lines), so a
successful return with unchanged `lines` does exist, refuting the claim's
"no successful return whose lines equal the input's lines". -/
theorem manchai_C1_cex :
    handler (some zeroActorScene) "continue" (Except.error ())
        (fun _ _ _ _ => none) 1000 2000 0
      = Except.ok ({ zeroActorScene with
                      summary := "Scene is beginning.",
                      updatedAt := 2000 }, []) ∧
    ({ zeroActorScene with
        summary := "Scene is beginning.",
        updatedAt := 2000 } : SceneState).lines = zeroActorScene.lines :=
  ⟨rfl, rfl⟩

/-- C1 (amended): for every valid scene and command, `processTurn` either
fails (returning an error response carrying no state) or returns a state
whose `lines` extend the input's `lines` by appending exactly the returned
new lines; the appended segment is non-empty except in the one case where
the Director call failed and the scene has no actors, in which case the turn
still succeeds with `lines` unchanged. -/
theorem manchai_C1_amended (s : SceneState) (cmd : String)
    (dir : Except Unit DirectorResponse)
    (synth : Nat → String → String → String → Option String) (now now2 rand : Nat) :
    handler (some s) cmd dir synth now now2 rand = Except.error () ∨
    ∃ st out, handler (some s) cmd dir synth now now2 rand = Except.ok (st, out) ∧
      st.lines = s.lines ++ out ∧ (out = [] → s.actors = []) := by
  cases hres : handler (some s) cmd dir synth now now2 rand with
  | error e =>
    cases e
    exact Or.inl rfl
  | ok p =>
    rcases p with ⟨st, out⟩
    right
    refine ⟨st, out, rfl, ?_, ?_⟩ <;>
      rcases (handler_ok hres).2 with ⟨hdir, hpair⟩ | ⟨r, hdir, hprim⟩
    · -- lines extend, fallback path
      have hst := congrArg Prod.fst hpair
      have hout := congrArg Prod.snd hpair
      simp only at hst hout
      rw [hst, hout, initialState_some]
      exact (fallbackTurn_eq s cmd (initialBeat (some s)) now now2 rand).2.1
    · -- lines extend, primary path
      rw [initialState_some] at hprim
      obtain ⟨hpos, ls, hmk, hout, hst⟩ := primaryTurn_ok hprim
      rw [hst]
      show (patchedState s r).lines ++ out = s.lines ++ out
      rw [(patchedState_parts s r).1]
    · -- empty output forces empty roster, fallback path
      intro hempty
      by_contra hactors
      have hout := congrArg Prod.snd hpair
      simp only at hout
      rw [initialState_some] at hout
      rcases gml_parts s cmd (initialBeat (some s)) now rand hactors with ⟨hlen, _⟩
      have h1 : out.length =
          (generateMockLines s cmd (initialBeat (some s)) now rand).length := by
        rw [hout, (fallbackTurn_eq s cmd (initialBeat (some s)) now now2 rand).1,
          (processTTS_fields _ _).1]
      rw [hempty] at h1
      simp only [List.length_nil] at h1
      omega
    · -- the primary path always appends at least one line
      intro hempty
      exfalso
      rw [initialState_some] at hprim
      obtain ⟨hpos, ls, hmk, hout, hst⟩ := primaryTurn_ok hprim
      have h1 : out.length = ls.length := by
        rw [hout, synthAll_length]
      have h2 : ls.length = (r.newLines.take 6).length := mkLines_length hmk
      rw [hempty] at h1
      simp only [List.length_nil, List.length_take] at h1 h2
      omega

/-- C1 amended witness: the amended statement at a concrete input. -/
theorem manchai_C1_amended_witness :
    handler (some zeroActorScene) "continue" (Except.error ())
        (fun _ _ _ _ => none) 1000 2000 0 = Except.error () ∨
    ∃ st out, handler (some zeroActorScene) "continue" (Except.error ())
        (fun _ _ _ _ => none) 1000 2000 0 = Except.ok (st, out) ∧
      st.lines = zeroActorScene.lines ++ out ∧
      (out = [] → zeroActorScene.actors = []) :=
  manchai_C1_amended zeroActorScene "continue" (Except.error ())
    (fun _ _ _ _ => none) 1000 2000 0

/-! ## C2 -/

/-- C2 counterexample: a primary Director response with 7 directives whose
7th names the unknown actor `ghost` does *not* fail the turn: the handler
slices to the first 6 directives before validating, so the turn succeeds
(with 6 new lines), refuting the claim that *any* directive with an unknown
`actorId` fails the whole turn. -/
theorem manchai_C2_cex :
    sevenLineResponse.newLines.any
        (fun d => oneActorScene.actors.all (fun a => a.id != d.actorId)) = true ∧
    (handler (some oneActorScene) "go" (Except.ok sevenLineResponse)
        (fun _ _ _ _ => none) 10 20 0).map (fun p => p.2.length)
      = Except.ok 6 := by
  constructor
  · decide
  · rfl

/-- C2 (amended): if any of the *first six* new-line directives of a primary
Director response carries an `actorId` not present in the scene's roster,
the whole turn fails with an error response, which carries no scene state —
so nothing from the response (metadata, actor patches, or lines) reaches the
caller. -/
theorem manchai_C2_amended (s : SceneState) (cmd : String) (r : DirectorResponse)
    (synth : Nat → String → String → String → Option String) (now now2 rand : Nat)
    (h : ∃ d ∈ r.newLines.take 6, ∀ a ∈ s.actors, a.id ≠ d.actorId) :
    handler (some s) cmd (Except.ok r) synth now now2 rand = Except.error () := by
  unfold handler
  split
  · rfl
  · show primaryTurn (initialState (some s) now) r synth (initialBeat (some s)) now now2
      = Except.error ()
    rw [initialState_some]
    unfold primaryTurn
    rcases h with ⟨d, hd6, hbad⟩
    have hne : ¬ (r.newLines.length = 0) := by
      intro h0
      rw [List.length_eq_zero] at h0
      rw [h0] at hd6
      cases hd6
    rw [if_neg hne]
    have hfind : (patchedState s r).actors.find? (fun a => a.id == d.actorId)
        = none := by
      rw [List.find?_eq_none]
      intro a ha
      have hid : a.id ∈ (patchedState s r).actors.map (fun a => a.id) :=
        List.mem_map_of_mem _ ha
      rw [(patchedState_parts s r).2.1] at hid
      rcases List.mem_map.mp hid with ⟨a', ha', heq⟩
      simp only [beq_iff_eq]
      intro hc
      exact hbad a' ha' (heq.trans hc)
    rw [mkLines_error_of_bad ⟨d, hd6, hfind⟩]

/-- C2 amended witness: a concrete one-directive response naming an unknown
actor makes the turn fail. -/
theorem manchai_C2_amended_witness :
    handler (some oneActorScene) "go" (Except.ok badOnlyResponse)
        (fun _ _ _ _ => none) 10 20 0 = Except.error () :=
  manchai_C2_amended oneActorScene "go" badOnlyResponse
    (fun _ _ _ _ => none) 10 20 0 ⟨badDirective, by decide, by decide⟩

/-! ## C9 -/

/-- C9 counterexample: a turn with command `Make it horror` and a null prior
state, when the Director call fails, succeeds via the fallback with genre
`drama`, not horror: the handler builds the scene with `createDefaultScene`
(fixed genre `drama`) and the fallback path never consults the
horror-keyword check (which lives in the uncalled `createInitialScene`), so
the returned genre does not reflect horror.  The roster ids are the default
three. -/
theorem manchai_C9_cex :
    (handler none "Make it horror" (Except.error ()) (fun _ _ _ _ => none)
        100 200 0).map (fun p => (p.1.genre, p.1.actors.map (fun a => a.id)))
      = Except.ok ("drama", ["actor-1", "actor-2", "actor-3"]) ∧
    ("drama" : String) ≠ "horror" := by
  constructor
  · rfl
  · decide

/-- The concrete run used by the C9 witness. -/
def c9pair : SceneState × List Line :=
  match handler none "Make it horror" (Except.error ()) (fun _ _ _ _ => none)
      100 200 0 with
  | Except.ok p => p
  | Except.error _ => (createDefaultScene 0, [])

/-- C9 (amended): a turn with command `Make it horror` and a null prior
state returns, on every successful outcome, a roster of exactly the 3
default actor ids (`actor-1`, `actor-2`, `actor-3`); the genre is whatever
the primary generator's metadata says when the primary path succeeds, and it
remains the default `drama` when the Director call fails, because the
handler's fallback never invokes the horror-keyword scene initializer. -/
theorem manchai_C9_amended (dir : Except Unit DirectorResponse)
    (synth : Nat → String → String → String → Option String)
    (now now2 rand : Nat) (st : SceneState) (out : List Line)
    (hok : handler none "Make it horror" dir synth now now2 rand
      = Except.ok (st, out)) :
    st.actors.map (fun a => a.id) = ["actor-1", "actor-2", "actor-3"] ∧
    (dir = Except.error () → st.genre = "drama") ∧
    (∀ r m, dir = Except.ok r → r.sceneMetadata = some m → st.genre = m.genre) := by
  rcases (handler_ok hok).2 with ⟨hdir, hpair⟩ | ⟨r, hdir, hprim⟩
  · have hst := congrArg Prod.fst hpair
    simp only at hst
    have hactors := (fallbackTurn_eq (initialState none now) "Make it horror"
      (initialBeat none) now now2 rand).2.2.1
    have hgenre := (fallbackTurn_eq (initialState none now) "Make it horror"
      (initialBeat none) now now2 rand).2.2.2
    refine ⟨?_, ?_, ?_⟩
    · rw [hst, hactors]
      rfl
    · intro _
      rw [hst, hgenre]
      rfl
    · intro r m hr
      rw [hdir] at hr
      cases hr
  · obtain ⟨hpos, ls, hmk, hout, hst⟩ := primaryTurn_ok hprim
    refine ⟨?_, ?_, ?_⟩
    · rw [hst]
      show (patchedState (initialState none now) r).actors.map (fun a => a.id)
        = ["actor-1", "actor-2", "actor-3"]
      rw [(patchedState_parts (initialState none now) r).2.1]
      rfl
    · intro hcontra
      rw [hdir] at hcontra
      cases hcontra
    · intro r0 m hr0 hm
      rw [hdir] at hr0
      injection hr0 with hr0
      subst hr0
      rw [hst]
      show (patchedState (initialState none now) r).genre = m.genre
      rw [patchedState_genre, hm]

/-- C9 amended witness: the roster conclusion at a concrete fallback run. -/
theorem manchai_C9_amended_witness :
    c9pair.1.actors.map (fun a => a.id) = ["actor-1", "actor-2", "actor-3"] :=
  (manchai_C9_amended (Except.error ()) (fun _ _ _ _ => none) 100 200 0
    c9pair.1 c9pair.2 rfl).1

theorem exists_mem_of_map_eq {α β : Type} {f : α → β} {l1 l2 : List α}
    (h : l1.map f = l2.map f) {x : α} (hx : x ∈ l1) : ∃ y ∈ l2, f y = f x := by
  have hmem : f x ∈ l2.map f := by
    rw [← h]
    exact List.mem_map_of_mem f hx
  rcases List.mem_map.mp hmem with ⟨y, hy, he⟩
  exact ⟨y, hy, he⟩

/-! ## C4 -/

/-- C4: if every `Line.actorId` of the input scene occurs in its roster,
then every `Line.actorId` of the scene returned by a successful turn (via
the primary or the fallback path) resolves to an entry of the returned
scene's `actors`. -/
theorem manchai_C4 (s : SceneState) (cmd : String)
    (dir : Except Unit DirectorResponse)
    (synth : Nat → String → String → String → Option String)
    (now now2 rand : Nat) (st : SceneState) (out : List Line)
    (hvalid : ∀ l ∈ s.lines, ∃ a ∈ s.actors, a.id = l.actorId)
    (hok : handler (some s) cmd dir synth now now2 rand = Except.ok (st, out)) :
    ∀ l ∈ st.lines, ∃ a ∈ st.actors, a.id = l.actorId := by
  rcases (handler_ok hok).2 with ⟨hdir, hpair⟩ | ⟨r, hdir, hprim⟩
  · have hst := congrArg Prod.fst hpair
    simp only at hst
    rw [initialState_some] at hst
    intro l hl
    rw [hst] at hl ⊢
    rw [(fallbackTurn_eq s cmd (initialBeat (some s)) now now2 rand).2.2.1]
    rw [(fallbackTurn_eq s cmd (initialBeat (some s)) now now2 rand).2.1] at hl
    rcases List.mem_append.mp hl with hl | hl
    · exact hvalid l hl
    · rw [(fallbackTurn_eq s cmd (initialBeat (some s)) now now2 rand).1] at hl
      by_cases hact : s.actors = []
      · rw [gml_of_empty s cmd (initialBeat (some s)) now rand hact] at hl
        simp [processLinesWithTTS] at hl
      · have hmap := (processTTS_fields
          (generateMockLines s cmd (initialBeat (some s)) now rand)
          (s.actors.map (fun a => (a.id, a.voiceId)))).2.2
        rcases exists_mem_of_map_eq hmap hl with ⟨g, hg, hge⟩
        rcases (gml_parts s cmd (initialBeat (some s)) now rand hact).2 g hg
          with ⟨_, a, ha, hae⟩
        exact ⟨a, ha, hae.trans hge⟩
  · rw [initialState_some] at hprim
    obtain ⟨hpos, ls, hmk, houtdef, hst⟩ := primaryTurn_ok hprim
    intro l hl
    rw [hst] at hl ⊢
    show ∃ a ∈ (patchedState s r).actors, a.id = l.actorId
    have hl' : l ∈ (patchedState s r).lines ++ out := hl
    rw [(patchedState_parts s r).1] at hl'
    rcases List.mem_append.mp hl' with hl' | hl'
    · rcases hvalid l hl' with ⟨a, ha, hae⟩
      have hid : a.id ∈ s.actors.map (fun a => a.id) := List.mem_map_of_mem _ ha
      rw [← (patchedState_parts s r).2.1] at hid
      rcases List.mem_map.mp hid with ⟨a2, ha2, he2⟩
      exact ⟨a2, ha2, he2.trans hae⟩
    · have hmap : out.map (fun l => l.actorId) = ls.map (fun l => l.actorId) := by
        rw [houtdef]
        exact synthAll_map_actorId (patchedState s r).actors r.newLines synth 0 ls
      rcases exists_mem_of_map_eq hmap hl' with ⟨l2, hl2, he2⟩
      rcases (mkLines_forall hmk l2 hl2).2.2.1 with ⟨a, ha, hae⟩
      exact ⟨a, ha, hae.trans he2⟩

/-- The concrete run used by the C4 witness. -/
def c4pair : SceneState × List Line :=
  match handler (some oneActorScene) "go" (Except.error ())
      (fun _ _ _ _ => none) 10 20 0 with
  | Except.ok p => p
  | Except.error _ => (oneActorScene, [])

/-- C4 witness: the invariant at a concrete fallback run, instantiated at
the first returned line. -/
theorem manchai_C4_witness :
    ∃ a ∈ c4pair.1.actors, a.id = (c4pair.1.lines.getD 0 wAngryLine).actorId :=
  manchai_C4 oneActorScene "go" (Except.error ()) (fun _ _ _ _ => none)
    10 20 0 c4pair.1 c4pair.2
    (by intro l hl; simp [oneActorScene] at hl) rfl
    (c4pair.1.lines.getD 0 wAngryLine) (by decide)

theorem find?_of_mem_first {p : Directive → Bool} {ds1 : List Directive}
    (ds2 : List Directive) (h : ∃ d ∈ ds1, p d = true) :
    (ds1 ++ ds2).find? p = ds1.find? p := by
  rw [List.find?_append]
  cases hfind : ds1.find? p with
  | some d => rfl
  | none =>
    exfalso
    rcases h with ⟨d, hd, hp⟩
    have hs : (ds1.find? p).isSome := List.find?_isSome.mpr ⟨d, hd, hp⟩
    rw [hfind] at hs
    cases hs

theorem primaryTurn_take6 (st0 : SceneState) (r : DirectorResponse)
    (synth : Nat → String → String → String → Option String)
    (beat now now2 : Nat) :
    primaryTurn st0 r synth beat now now2
      = primaryTurn st0 { r with newLines := r.newLines.take 6 } synth
          beat now now2 := by
  unfold primaryTurn
  have hpa : patchedState st0 { r with newLines := r.newLines.take 6 }
      = patchedState st0 r := rfl
  rw [hpa]
  have hnl : ({ r with newLines := r.newLines.take 6 } : DirectorResponse).newLines
      = r.newLines.take 6 := rfl
  rw [hnl]
  by_cases h0 : r.newLines.length = 0
  · rw [if_pos h0, if_pos (by simp [List.length_take, h0])]
  · rw [if_neg h0, if_neg (by simp only [List.length_take]; omega)]
    rw [List.take_take, min_self]
    cases hmk : mkLines (patchedState st0 r).actors now beat 0 (r.newLines.take 6) with
    | error e => rfl
    | ok ls =>
      have hsynth : synthAll (patchedState st0 r).actors r.newLines synth 0 ls
          = synthAll (patchedState st0 r).actors (r.newLines.take 6) synth 0 ls := by
        apply synthAll_congr_dirs
        intro l hl
        rcases (mkLines_forall hmk l hl).2.2.2 with ⟨d, hd, hid, htext⟩
        have hsplit : r.newLines = r.newLines.take 6 ++ r.newLines.drop 6 :=
          (List.take_append_drop 6 r.newLines).symm
        conv_lhs => rw [hsplit]
        apply find?_of_mem_first
        refine ⟨d, hd, ?_⟩
        simp [hid, htext]
      simp only [hsynth]

/-! ## C10 -/

/-- C10: the primary path uses only the first 6 entries of the Director
response's `newLines`: the handler's outcome is unchanged if the response is
replaced by its 6-directive prefix (so directives beyond the sixth are
silently dropped, never validated, and never cause an error), and every
successful primary turn appends exactly `min 6 (newLines.length)` lines —
in particular at most 6. -/
theorem manchai_C10 (s : SceneState) (cmd : String) (r : DirectorResponse)
    (synth : Nat → String → String → String → Option String)
    (now now2 rand : Nat) :
    handler (some s) cmd (Except.ok r) synth now now2 rand
      = handler (some s) cmd (Except.ok { r with newLines := r.newLines.take 6 })
          synth now now2 rand ∧
    (∀ st out, handler (some s) cmd (Except.ok r) synth now now2 rand
        = Except.ok (st, out) →
      out.length = min 6 r.newLines.length ∧ out.length ≤ 6 ∧
        st.lines = s.lines ++ out) := by
  constructor
  · unfold handler
    split
    · rfl
    · show primaryTurn (initialState (some s) now) r synth (initialBeat (some s))
          now now2 = _
      exact primaryTurn_take6 (initialState (some s) now) r synth
        (initialBeat (some s)) now now2
  · intro st out hok
    rcases (handler_ok hok).2 with ⟨hdir, _⟩ | ⟨r0, hdir, hprim⟩
    · exact absurd hdir (by simp)
    · injection hdir with hdir
      subst hdir
      rw [initialState_some] at hprim
      obtain ⟨hpos, ls, hmk, houtdef, hst⟩ := primaryTurn_ok hprim
      have hlen : out.length = min 6 r.newLines.length := by
        rw [houtdef, synthAll_length, mkLines_length hmk, List.length_take]
      refine ⟨hlen, by omega, ?_⟩
      rw [hst]
      show (patchedState s r).lines ++ out = s.lines ++ out
      rw [(patchedState_parts s r).1]

/-- The concrete run used by the C10 and C3 witnesses: a successful primary
turn over a 7-directive response. -/
def c10pair : SceneState × List Line :=
  match handler (some oneActorScene) "go" (Except.ok sevenLineResponse)
      (fun _ _ _ _ => none) 10 20 0 with
  | Except.ok p => p
  | Except.error _ => (oneActorScene, [])

/-- C10 witness: the cap conclusion at a concrete successful primary run. -/
theorem manchai_C10_witness :
    c10pair.2.length = min 6 sevenLineResponse.newLines.length ∧
    c10pair.2.length ≤ 6 ∧
    c10pair.1.lines = oneActorScene.lines ++ c10pair.2 :=
  (manchai_C10 oneActorScene "go" sevenLineResponse (fun _ _ _ _ => none)
    10 20 0).2 c10pair.1 c10pair.2 rfl

theorem chain_le_of_all_eq {l : List Nat} {c : Nat} (h : ∀ x ∈ l, x = c) :
    List.Chain' (fun a b => a ≤ b) l := by
  induction l with
  | nil => exact List.chain'_nil
  | cons x rest ih =>
    cases rest with
    | nil => exact List.chain'_singleton x
    | cons y rest2 =>
      rw [List.chain'_cons]
      refine ⟨?_, ih (fun z hz => h z (List.mem_cons_of_mem x hz))⟩
      rw [h x (by simp), h y (by simp)]

theorem chain_le_append {l1 l2 : List Nat}
    (h1 : List.Chain' (fun a b => a ≤ b) l1)
    (h2 : List.Chain' (fun a b => a ≤ b) l2)
    (hb : ∀ x ∈ l1, ∀ y ∈ l2, x ≤ y) :
    List.Chain' (fun a b => a ≤ b) (l1 ++ l2) :=
  h1.append h2 (fun x hx y hy =>
    hb x (List.mem_of_mem_getLast? hx) y (List.mem_of_mem_head? hy))

theorem countP_take_mono (p : Directive → Bool) (ds : List Directive) {i j : Nat}
    (h : i ≤ j) : (ds.take i).countP p ≤ (ds.take j).countP p := by
  have hpre : ds.take i <+: ds.take j := by
    have heq : (ds.take j).take i = ds.take i := by
      rw [List.take_take, min_eq_left h]
    rw [← heq]
    exact List.take_prefix i (ds.take j)
  exact hpre.sublist.countP_le p

theorem mkLines_chain {actors : List Actor} {now beat index : Nat}
    {ds : List Directive} {ls : List Line}
    (h : mkLines actors now beat index ds = Except.ok ls) :
    List.Chain' (fun a b => a ≤ b) (ls.map (fun l => l.beatIndex)) := by
  rw [List.chain'_iff_get]
  intro i hi
  rw [List.length_map] at hi
  have hi1 : i < ls.length := by omega
  have hi2 : i + 1 < ls.length := by omega
  rw [List.get_map, List.get_map]
  simp only
  rw [mkLines_get_beat h i hi1, mkLines_get_beat h (i + 1) hi2]
  exact Nat.add_le_add_left
    (countP_take_mono (fun d => d.beatDelta == 1) ds (by omega)) beat

/-! ## C3 -/

/-- C3: if the input scene's `beatIndex` sequence is non-decreasing, so is
the sequence of the scene returned by a successful turn (either path); and
on the primary path the `i`-th appended line's `beatIndex` is the running
beat counter — started at the maximum existing `beatIndex` — incremented by
each directive's `beatDelta` before assignment, i.e. `maxBeat` plus the
number of `beatDelta = 1` directives among the first `i + 1` processed
directives. -/
theorem manchai_C3 (s : SceneState) (cmd : String)
    (dir : Except Unit DirectorResponse)
    (synth : Nat → String → String → String → Option String)
    (now now2 rand : Nat) (st : SceneState) (out : List Line)
    (hmono : List.Chain' (fun a b => a ≤ b) (s.lines.map (fun l => l.beatIndex)))
    (hok : handler (some s) cmd dir synth now now2 rand = Except.ok (st, out)) :
    List.Chain' (fun a b => a ≤ b) (st.lines.map (fun l => l.beatIndex)) ∧
    (∀ r, dir = Except.ok r → ∀ i (hi : i < out.length),
      (out.get ⟨i, hi⟩).beatIndex
        = maxBeat s.lines
            + ((r.newLines.take 6).take (i + 1)).countP
                (fun d => d.beatDelta == 1)) := by
  rcases (handler_ok hok).2 with ⟨hdir, hpair⟩ | ⟨r0, hdir, hprim⟩
  · -- fallback path
    have hst := congrArg Prod.fst hpair
    have hout := congrArg Prod.snd hpair
    simp only at hst hout
    rw [initialState_some, initialBeat_some] at hst hout
    have hbeat : ∀ l ∈ generateMockLines s cmd (maxBeat s.lines) now rand,
        l.beatIndex = maxBeat s.lines + 1 := by
      by_cases hact : s.actors = []
      · rw [gml_of_empty s cmd (maxBeat s.lines) now rand hact]
        intro l hl
        cases hl
      · intro l hl
        exact ((gml_parts s cmd (maxBeat s.lines) now rand hact).2 l hl).1
    have houtbeat : ∀ y ∈ out.map (fun l => l.beatIndex), y = maxBeat s.lines + 1 := by
      intro y hy
      rw [hout, (fallbackTurn_eq s cmd (maxBeat s.lines) now now2 rand).1] at hy
      rw [(processTTS_fields _ _).2.1] at hy
      rcases List.mem_map.mp hy with ⟨l, hl, he⟩
      rw [← he]
      exact hbeat l hl
    constructor
    · rw [hst, (fallbackTurn_eq s cmd (maxBeat s.lines) now now2 rand).2.1,
        ← hout, List.map_append]
      refine chain_le_append hmono (chain_le_of_all_eq houtbeat) ?_
      intro x hx y hy
      rcases List.mem_map.mp hx with ⟨l, hl, he⟩
      rw [houtbeat y hy, ← he]
      exact le_trans (le_maxBeat hl) (Nat.le_succ _)
    · intro r hr
      rw [hdir] at hr
      cases hr
  · -- primary path
    rw [initialState_some, initialBeat_some] at hprim
    obtain ⟨hpos, ls, hmk, houtdef, hst⟩ := primaryTurn_ok hprim
    have hmapeq : out.map (fun l => l.beatIndex) = ls.map (fun l => l.beatIndex) := by
      rw [houtdef]
      exact synthAll_map_beat (patchedState s r0).actors r0.newLines synth 0 ls
    constructor
    · rw [hst]
      show List.Chain' (fun a b => a ≤ b)
        (((patchedState s r0).lines ++ out).map (fun l => l.beatIndex))
      rw [(patchedState_parts s r0).1, List.map_append, hmapeq]
      refine chain_le_append hmono (mkLines_chain hmk) ?_
      intro x hx y hy
      rcases List.mem_map.mp hx with ⟨l, hl, he⟩
      rcases List.mem_map.mp hy with ⟨l2, hl2, he2⟩
      have hlb := (mkLines_forall hmk l2 hl2).2.1
      rw [← he, ← he2]
      exact le_trans (le_maxBeat hl) hlb
    · intro r hr i hi
      rw [hdir] at hr
      injection hr with hr
      subst hr
      subst houtdef
      have hi2 : i < ls.length := by
        rw [synthAll_length] at hi
        exact hi
      rw [synthAll_get (patchedState s r0).actors r0.newLines synth 0 ls i hi2 hi,
        (synthStep_fields _ _ _ _ _).2.1]
      exact mkLines_get_beat hmk i hi2

/-- C3 witness: the conclusions at a concrete successful primary run over a
scene with no prior lines. -/
theorem manchai_C3_witness :
    List.Chain' (fun a b => a ≤ b) (c10pair.1.lines.map (fun l => l.beatIndex)) :=
  (manchai_C3 oneActorScene "go" (Except.ok sevenLineResponse)
    (fun _ _ _ _ => none) 10 20 0 c10pair.1 c10pair.2
    (by simp [oneActorScene]) rfl).1

theorem synthStep_of_fail {actors : List Actor} {dirs : List Directive}
    {sF : Nat → String → String → String → Option String} {l : Line} {i : Nat}
    (hf : ∀ t v lg, sF i t v lg = none) :
    synthStep actors dirs sF l i = l := by
  unfold synthStep
  cases (actors.reverse).find? (fun a => a.id == l.actorId) with
  | none => rfl
  | some actor =>
    simp only
    rw [hf]

theorem synthStep_congr {actors : List Actor} {dirs : List Directive}
    {s1 s2 : Nat → String → String → String → Option String} {l : Line} {i : Nat}
    (h : s1 i = s2 i) :
    synthStep actors dirs s1 l i = synthStep actors dirs s2 l i := by
  unfold synthStep
  rw [h]

/-! ## C8 -/

/-- C8: speech-synthesis failures are isolated per line: take any successful
primary turn and any line index `i`; if the synthesis oracle is changed to
fail on the `i`-th call but is unchanged elsewhere, the turn still succeeds
with the same number of lines, the `i`-th returned line is kept with an
empty `audioUrl` (all other fields unchanged), and every other line is
unaffected. -/
theorem manchai_C8 (s : SceneState) (cmd : String) (r : DirectorResponse)
    (synth synthF : Nat → String → String → String → Option String)
    (now now2 rand : Nat) (st : SceneState) (out : List Line) (i : Nat)
    (hok : handler (some s) cmd (Except.ok r) synth now now2 rand
      = Except.ok (st, out))
    (hi : i < out.length)
    (hfail : ∀ t v lg, synthF i t v lg = none)
    (hsame : ∀ j, j ≠ i → synthF j = synth j) :
    ∃ st2 out2,
      handler (some s) cmd (Except.ok r) synthF now now2 rand
        = Except.ok (st2, out2) ∧
      out2.length = out.length ∧
      (∀ hi2 : i < out2.length,
        out2.get ⟨i, hi2⟩ = { out.get ⟨i, hi⟩ with audioUrl := "" }) ∧
      (∀ j (hj : j < out.length) (hj2 : j < out2.length), j ≠ i →
        out2.get ⟨j, hj2⟩ = out.get ⟨j, hj⟩) := by
  rcases (handler_ok hok).2 with ⟨hdir, _⟩ | ⟨r, hdir, hprim⟩
  · exact absurd hdir (by simp)
  · injection hdir with hdir
    subst hdir
    rw [initialState_some] at hprim
    obtain ⟨hpos, ls, hmk, houtdef, hst⟩ := primaryTurn_ok hprim
    have hcmd : ¬ (cmd = "") := (handler_ok hok).1
    refine ⟨{ patchedState s r with
              lines := (patchedState s r).lines
                ++ synthAll (patchedState s r).actors r.newLines synthF 0 ls,
              summary := summarizeScene (patchedState s r).summary
                ((patchedState s r).lines
                  ++ synthAll (patchedState s r).actors r.newLines synthF 0 ls)
                (patchedState s r).actors,
              updatedAt := now2 },
      synthAll (patchedState s r).actors r.newLines synthF 0 ls,
      ?_, ?_, ?_, ?_⟩
    · unfold handler
      rw [if_neg hcmd]
      show primaryTurn (initialState (some s) now) r synthF (initialBeat (some s))
          now now2 = _
      rw [initialState_some]
      unfold primaryTurn
      rw [if_neg (Nat.pos_iff_ne_zero.mp hpos), hmk]
    · rw [houtdef, synthAll_length, synthAll_length]
    · intro hi2
      have hils : i < ls.length := by
        rw [houtdef, synthAll_length] at hi
        exact hi
      have h2 : (synthAll (patchedState s r).actors r.newLines synthF 0 ls).get
          ⟨i, hi2⟩ = ls.get ⟨i, hils⟩ := by
        rw [synthAll_get (patchedState s r).actors r.newLines synthF 0 ls i hils hi2]
        exact synthStep_of_fail (by intro t v lg; rw [Nat.zero_add]; exact hfail t v lg)
      have h3 : out.get ⟨i, hi⟩
          = synthStep (patchedState s r).actors r.newLines synth
              (ls.get ⟨i, hils⟩) (0 + i) := by
        have hval := synthAll_get (patchedState s r).actors r.newLines synth 0 ls i hils
        revert hi
        rw [houtdef]
        intro hi
        exact hval hi
      rw [h2, h3]
      have haudio : (ls.get ⟨i, hils⟩).audioUrl = "" :=
        (mkLines_forall hmk (ls.get ⟨i, hils⟩) (List.get_mem ls i hils)).1
      rw [← haudio]
      exact ((synthStep_fields (patchedState s r).actors r.newLines synth
        (ls.get ⟨i, hils⟩) (0 + i)).2.2).symm
    · intro j hj hj2 hne
      have hjls : j < ls.length := by
        rw [houtdef, synthAll_length] at hj
        exact hj
      have h2 : (synthAll (patchedState s r).actors r.newLines synthF 0 ls).get
          ⟨j, hj2⟩ = synthStep (patchedState s r).actors r.newLines synthF
            (ls.get ⟨j, hjls⟩) (0 + j) :=
        synthAll_get (patchedState s r).actors r.newLines synthF 0 ls j hjls hj2
      have h3 : out.get ⟨j, hj⟩
          = synthStep (patchedState s r).actors r.newLines synth
              (ls.get ⟨j, hjls⟩) (0 + j) := by
        have hval := synthAll_get (patchedState s r).actors r.newLines synth 0 ls j hjls
        revert hj
        rw [houtdef]
        intro hj
        exact hval hj
      rw [h2, h3]
      apply synthStep_congr
      rw [Nat.zero_add]
      exact hsame j hne

/-- An always-succeeding synthesis oracle for the C8 witness. -/
def c8synth : Nat → String → String → String → Option String :=
  fun _ _ _ _ => some "data:audio/mpeg;base64,AAAA"

/-- The oracle `c8synth` with the first call forced to fail. -/
def c8synthF : Nat → String → String → String → Option String :=
  fun j t v lg => if j = 0 then none else c8synth j t v lg

/-- A well-formed 3-directive response for the C8 witness. -/
def threeLineResponse : DirectorResponse :=
  { sceneMetadata := none, updatedActors := none,
    newLines := [okDirective, okDirective, okDirective] }

/-- The concrete successful run used by the C8 witness. -/
def c8pair : SceneState × List Line :=
  match handler (some oneActorScene) "go" (Except.ok threeLineResponse)
      c8synth 10 20 0 with
  | Except.ok p => p
  | Except.error _ => (oneActorScene, [])

/-- C8 witness: failing the first synthesis call of a concrete successful
turn still yields a successful turn with the same number of lines. -/
theorem manchai_C8_witness :
    ∃ st2 out2,
      handler (some oneActorScene) "go" (Except.ok threeLineResponse)
          c8synthF 10 20 0 = Except.ok (st2, out2) ∧
      out2.length = c8pair.2.length := by
  obtain ⟨st2, out2, h1, h2, _, _⟩ :=
    manchai_C8 oneActorScene "go" threeLineResponse c8synth c8synthF 10 20 0
      c8pair.1 c8pair.2 0 rfl (by decide) (fun t v lg => rfl)
      (by
        intro j hj
        funext t v lg
        simp [c8synthF, hj])
  exact ⟨st2, out2, h1, h2⟩

theorem speakerParts_length_le (ms : List String) : (speakerParts ms).length ≤ 1 := by
  unfold speakerParts
  rcases ms with _ | ⟨a, _ | ⟨b, _ | ⟨c, t⟩⟩⟩ <;> simp

theorem topicParts_length_le (ks : List String) : (topicParts ks).length ≤ 1 := by
  unfold topicParts
  split <;> simp

theorem toneParts_length_le (t : String) : (toneParts t).length ≤ 1 := by
  unfold toneParts
  split <;> simp

theorem beatParts_length_le (n : Nat) : (beatParts n).length ≤ 1 := by
  unfold beatParts
  split <;> simp

theorem prevParts_of_empty : prevParts "" = [] := by
  unfold prevParts
  rw [if_neg]
  rintro ⟨h, _⟩
  exact h rfl

theorem toneOf_cases (s : String) (h : toneOf s ≠ "neutral") :
    toneOf s = "tense" ∨ toneOf s = "positive" ∨ toneOf s = "somber" ∨
      toneOf s = "inquisitive" := by
  unfold toneOf at *
  split_ifs at * <;> simp_all

theorem toneDescription_facts (t : String)
    (h : t = "tense" ∨ t = "positive" ∨ t = "somber" ∨ t = "inquisitive") :
    toneDescription t ≠ "" ∧ 0 < (jsTrim (toneDescription t)).length := by
  rcases h with h | h | h | h <;> subst h <;> exact ⟨by decide, by decide⟩

theorem summarize_no_prev (lines : List Line) (actors : List Actor)
    (hne : lines ≠ []) :
    summarizeScene "" lines actors
      = (if finalSummaryOf "" lines actors = ""
         then "Scene dialogue is progressing."
         else finalSummaryOf "" lines actors) := by
  unfold summarizeScene
  have hlen : ¬ ((lastTen lines).length = 0) := by
    simp only [lastTen, List.length_drop]
    have := List.length_pos.mpr hne
    omega
  rw [if_neg hlen, if_neg]
  rintro ⟨⟨h, _⟩, _⟩
  exact h rfl

theorem tone_sentence_in_summarize (lines : List Line) (actors : List Actor)
    (hne : lines ≠ []) (ht : toneOf (allTextOf lines) ≠ "neutral") :
    strIncludes (summarizeScene "" lines actors)
      (toneDescription (toneOf (allTextOf lines))) = true := by
  have hfacts := toneDescription_facts _ (toneOf_cases _ ht)
  have hmem : toneDescription (toneOf (allTextOf lines))
      ∈ summaryPartsOf "" lines actors := by
    unfold summaryPartsOf
    have htp : toneParts (toneOf (allTextOf lines))
        = [toneDescription (toneOf (allTextOf lines))] := by
      unfold toneParts
      rw [if_neg ht]
    rw [htp]
    simp
  have hlenparts :
      ((summaryPartsOf "" lines actors).filter
        (fun part => 0 < (jsTrim part).length)).length ≤ 5 := by
    have h1 := List.length_filter_le (fun part => 0 < (jsTrim part).length)
      (summaryPartsOf "" lines actors)
    have h2 : (summaryPartsOf "" lines actors).length ≤ 5 := by
      unfold summaryPartsOf
      rw [prevParts_of_empty]
      simp only [List.length_append, List.length_nil]
      have := speakerParts_length_le (mainSpeakersOf lines actors)
      have := topicParts_length_le (keyPhrasesOf lines)
      have := toneParts_length_le (toneOf (allTextOf lines))
      have := beatParts_length_le (beatCountOf lines)
      omega
    omega
  have hmemf : toneDescription (toneOf (allTextOf lines))
      ∈ ((summaryPartsOf "" lines actors).filter
          (fun part => 0 < (jsTrim part).length)).take 5 :=
    mem_take_of_length_le
      (List.mem_filter.mpr ⟨hmem, by simpa using hfacts.2⟩) hlenparts
  have hinc : strIncludes (finalSummaryOf "" lines actors)
      (toneDescription (toneOf (allTextOf lines))) = true := by
    unfold finalSummaryOf
    exact strIncludes_joinSpace hmemf
  have hfs : finalSummaryOf "" lines actors ≠ "" :=
    ne_empty_of_strIncludes hfacts.1 hinc
  rw [summarize_no_prev lines actors hne, if_neg hfs]
  exact hinc

/-! ## C6 -/

set_option maxRecDepth 20000 in
set_option maxHeartbeats 1000000 in
/-- C6 counterexample: the claim's tone guarantee fails as stated, because
the 800-character truncation of the prepend branch can cut the tone sentence
off: with an 800-character previous summary and a recent line containing the
anger keyword `angry`, the output is the previous summary truncated at 800
characters and does not contain the `tense` sentence. -/
theorem manchai_C6_cex :
    matchAnyWord (allTextOf [wAngryLine]) angerWords = true ∧
    strIncludes (summarizeScene p800 [wAngryLine] [wActor1])
      "The conversation has become tense." = false := by
  constructor
  · decide
  · decide

/-- C6 (amended): provided the output is not cut by the 800-character
truncation of the prepend branch — in particular whenever the previous
summary is empty — the tone classification behaves as claimed: an anger
keyword (word-boundary match, e.g. `angry`) in the joined lowercased text of
the last 10 lines puts the `tense` sentence in the output; a joy keyword
with no anger keyword puts the `positive` sentence; and in general the first
matching class in the priority order tense > positive > somber >
inquisitive determines the single tone sentence. -/
theorem manchai_C6_amended (lines : List Line) (actors : List Actor)
    (hne : lines ≠ []) :
    (matchAnyWord (allTextOf lines) angerWords = true →
      strIncludes (summarizeScene "" lines actors)
        "The conversation has become tense." = true) ∧
    (matchAnyWord (allTextOf lines) angerWords = false →
      matchAnyWord (allTextOf lines) joyWords = true →
      strIncludes (summarizeScene "" lines actors)
        "The mood is positive." = true) ∧
    (matchAnyWord (allTextOf lines) angerWords = false →
      matchAnyWord (allTextOf lines) joyWords = false →
      matchAnyWord (allTextOf lines) sorrowWords = true →
      strIncludes (summarizeScene "" lines actors)
        "The atmosphere is somber." = true) ∧
    (matchAnyWord (allTextOf lines) angerWords = false →
      matchAnyWord (allTextOf lines) joyWords = false →
      matchAnyWord (allTextOf lines) sorrowWords = false →
      matchAnyWord (allTextOf lines) questionWords = true →
      strIncludes (summarizeScene "" lines actors)
        "Questions are being raised." = true) := by
  refine ⟨?_, ?_, ?_, ?_⟩
  · intro h1
    have htone : toneOf (allTextOf lines) = "tense" := by
      unfold toneOf
      rw [if_pos h1]
    have := tone_sentence_in_summarize lines actors hne (by rw [htone]; decide)
    rw [htone] at this
    exact this
  · intro h1 h2
    have htone : toneOf (allTextOf lines) = "positive" := by
      unfold toneOf
      rw [if_neg (by simp [h1]), if_pos h2]
    have := tone_sentence_in_summarize lines actors hne (by rw [htone]; decide)
    rw [htone] at this
    exact this
  · intro h1 h2 h3
    have htone : toneOf (allTextOf lines) = "somber" := by
      unfold toneOf
      rw [if_neg (by simp [h1]), if_neg (by simp [h2]), if_pos h3]
    have := tone_sentence_in_summarize lines actors hne (by rw [htone]; decide)
    rw [htone] at this
    exact this
  · intro h1 h2 h3 h4
    have htone : toneOf (allTextOf lines) = "inquisitive" := by
      unfold toneOf
      rw [if_neg (by simp [h1]), if_neg (by simp [h2]), if_neg (by simp [h3]),
        if_pos h4]
    have := tone_sentence_in_summarize lines actors hne (by rw [htone]; decide)
    rw [htone] at this
    exact this

/-- C6 amended witness: a concrete line containing `angry` puts the tense
sentence in the summary when there is no previous summary. -/
theorem manchai_C6_amended_witness :
    strIncludes (summarizeScene "" [wAngryLine] [wActor1])
      "The conversation has become tense." = true :=
  (manchai_C6_amended [wAngryLine] [wActor1] (by decide)).1 (by decide)
